import Mathlib

/-!
Verification of the Glaser condensation / U-value engine of the
vertex-calculator repository (src/app.py), as a shallow embedding over ℝ.

The physics engine (`calculate_dewpoint`, `run_single_glaser`) and the
annual aggregation loop (the "Annual Cycle (Galway)" branch of the RUN
CALCULATIONS handler) are translated definition by definition from the
source; machine floats are modelled by real numbers, and the NaN-as-absence
sentinel for a layer's direct vapour resistance is modelled by `Option ℝ`.
-/

namespace Vertex

/-- A material layer as assembled by the UI loop (src/app.py line 216):
name, thickness in mm, thermal conductivity lambda, mu value, and the
direct vapour resistance column, whose NaN sentinel is modelled as `none`. -/
structure Layer where
  name : String
  thickness : ℝ
  lambda : ℝ
  mu : ℝ
  r_vap : Option ℝ

/-- One node of the temperature / dew-point profile: an entry of the three
parallel lists `points['x']`, `points['temp']`, `points['dew']`. -/
structure Node where
  x : ℝ
  temp : ℝ
  dew : ℝ

/-- An entry of the `processed` list built by `run_single_glaser`. -/
structure Proc where
  r : ℝ
  rv : ℝ
  thick : ℝ
  name : String

/-- src/app.py lines 114-116: dew point from vapour pressure, with the -50
sentinel for non-positive vapour pressure. -/
noncomputable def calculate_dewpoint (vp : ℝ) : ℝ :=
  if vp ≤ 0 then -50
  else (237.7 * Real.log (vp / 610.5)) / (17.27 - Real.log (vp / 610.5))

/-- Magnus-Tetens saturation pressure, the expression computed inline for
`psat_in` (line 120) and `psat_out` (line 122). -/
noncomputable def satP (t : ℝ) : ℝ :=
  610.5 * Real.exp ((17.27 * t) / (237.7 + t))

/-- Vapour pressure `psat * (rh / 100)` (lines 121 and 123). -/
noncomputable def pvOf (t rh : ℝ) : ℝ :=
  satP t * (rh / 100)

/-- Line 131: `r = thick_m / layer['lambda'] if layer['lambda'] > 0 else 0`. -/
noncomputable def layerR (l : Layer) : ℝ :=
  if 0 < l.lambda then (l.thickness / 1000) / l.lambda else 0

/-- Lines 132-135: direct vapour resistance when present (not NaN),
otherwise `mu * thick_m * 5`. -/
noncomputable def layerRv (l : Layer) : ℝ :=
  match l.r_vap with
  | some v => v
  | none => l.mu * (l.thickness / 1000) * 5

/-- Line 125 and the loop at 129-137: `total_r` starts at 0.14 and
accumulates each layer's thermal resistance. -/
noncomputable def total_r (layers : List Layer) : ℝ :=
  0.14 + (layers.map layerR).sum

/-- Lines 126 and 137: total vapour resistance, starting at 0. -/
noncomputable def total_rv (layers : List Layer) : ℝ :=
  (layers.map layerRv).sum

/-- Line 138: the record appended to `processed` for one layer. -/
noncomputable def toProc (l : Layer) : Proc :=
  ⟨layerR l, layerRv l, l.thickness, l.name⟩

/-- The per-layer walk, lines 150-160: each iteration applies the layer's
share of the temperature and vapour-pressure drops, emits a node, and
accumulates the risk flag (line 160, set when `dp_temp >= curr['temp']`). -/
noncomputable def glaserWalk (t_in t_out pv_in pv_out tr trv : ℝ) :
    List Proc → ℝ → ℝ → ℝ → List Node × Bool
  | [], _, _, _ => ([], false)
  | p :: ps, temp, pv, x =>
    let dt := (t_in - t_out) * (p.r / tr)
    let dp := if 0 < trv then (pv_in - pv_out) * (p.rv / trv) else 0
    let temp2 := temp - dt
    let pv2 := pv - dp
    let x2 := x + p.thick
    let dew := calculate_dewpoint pv2
    let rest := glaserWalk t_in t_out pv_in pv_out tr trv ps temp2 pv2 x2
    (⟨x2, temp2, dew⟩ :: rest.1, (if temp2 ≤ dew then true else false) || rest.2)

/-- The tuple returned by `run_single_glaser` (line 162). -/
structure GlaserResult where
  points : List Node
  risk : Bool
  u : ℝ

/-- src/app.py lines 118-162: the single-sample Glaser engine.  The first
node is the undisturbed inside air (line 140), the second is the surface
node after the inside film drop `(t_in - t_out) * (0.10 / total_r)`
(lines 144-148), then the per-layer walk runs, and `1/total_r` is the
U-value. -/
noncomputable def run_single_glaser (layers : List Layer)
    (t_in rh_in t_out rh_out : ℝ) : GlaserResult :=
  let pv_in := pvOf t_in rh_in
  let pv_out := pvOf t_out rh_out
  let tr := total_r layers
  let trv := total_rv layers
  let processed := layers.map toProc
  let temp1 := t_in - (t_in - t_out) * (0.10 / tr)
  let w := glaserWalk t_in t_out pv_in pv_out tr trv processed temp1 pv_in 0
  ⟨⟨0, t_in, calculate_dewpoint pv_in⟩ :: ⟨0, temp1, calculate_dewpoint pv_in⟩ :: w.1,
    w.2, 1 / tr⟩

/-! ### Structural lemmas about the walk -/

/-- The walk's risk flag is true exactly when some emitted node has its dew
point at or above its temperature. -/
theorem glaserWalk_risk_iff (t_in t_out pv_in pv_out tr trv : ℝ) :
    ∀ (ps : List Proc) (temp pv x : ℝ),
      ((glaserWalk t_in t_out pv_in pv_out tr trv ps temp pv x).2 = true ↔
        ∃ n ∈ (glaserWalk t_in t_out pv_in pv_out tr trv ps temp pv x).1,
          n.temp ≤ n.dew) := by
  intro ps
  induction ps with
  | nil => intro temp pv x; simp [glaserWalk]
  | cons p ps ih =>
    intro temp pv x
    simp only [glaserWalk, Bool.or_eq_true, List.mem_cons]
    constructor
    · rintro (h | h)
      · refine ⟨_, Or.inl rfl, ?_⟩
        by_cases hc : temp - (t_in - t_out) * (p.r / tr) ≤
            calculate_dewpoint (pv - if 0 < trv then (pv_in - pv_out) * (p.rv / trv) else 0)
        · exact hc
        · simp [hc] at h
      · obtain ⟨n, hn, hle⟩ := (ih _ _ _).mp h
        exact ⟨n, Or.inr hn, hle⟩
    · rintro ⟨n, hn | hn, hle⟩
      · subst hn
        left
        simp only at hle
        simp [hle]
      · exact Or.inr ((ih _ _ _).mpr ⟨n, hn, hle⟩)

/-- When the vapour-resistance guard fails (total vapour resistance not
positive) the running vapour pressure never changes, so every emitted node
carries the dew point of the starting vapour pressure. -/
theorem glaserWalk_pv_const (t_in t_out pv_in pv_out tr trv : ℝ)
    (htrv : ¬ 0 < trv) :
    ∀ (ps : List Proc) (temp pv x : ℝ),
      ∀ n ∈ (glaserWalk t_in t_out pv_in pv_out tr trv ps temp pv x).1,
        n.dew = calculate_dewpoint pv := by
  intro ps
  induction ps with
  | nil => intro temp pv x; simp [glaserWalk]
  | cons p ps ih =>
    intro temp pv x n hn
    simp only [glaserWalk, if_neg htrv, sub_zero, List.mem_cons] at hn
    rcases hn with hn | hn
    · subst hn; rfl
    · exact ih _ _ _ n hn

/-- C3: run_single_glaser flags risk exactly when some profile node after
the first two (a node emitted in the per-layer walk) has its computed dew
point greater than or equal to its computed temperature; the inclusive
comparison and the set-once accumulation make the flag the disjunction of
the per-node tests. -/
theorem c3_risk_iff (layers : List Layer) (t_in rh_in t_out rh_out : ℝ) :
    ((run_single_glaser layers t_in rh_in t_out rh_out).risk = true ↔
      ∃ n ∈ (run_single_glaser layers t_in rh_in t_out rh_out).points.drop 2,
        n.temp ≤ n.dew) := by
  simp only [run_single_glaser, List.drop_succ_cons, List.drop_zero]
  exact glaserWalk_risk_iff _ _ _ _ _ _ _ _ _ _

/-- C7: on an empty assembly the engine still emits the two inlet-surface
nodes, both at x = 0 — the first at the undisturbed inside air temperature,
the second after the inside surface-film drop — and reports no risk. -/
theorem c7_empty_assembly (t_in rh_in t_out rh_out : ℝ) :
    (run_single_glaser [] t_in rh_in t_out rh_out).points =
      [⟨0, t_in, calculate_dewpoint (pvOf t_in rh_in)⟩,
       ⟨0, t_in - (t_in - t_out) * (0.10 / 0.14),
        calculate_dewpoint (pvOf t_in rh_in)⟩] ∧
    (run_single_glaser [] t_in rh_in t_out rh_out).risk = false := by
  constructor
  · simp [run_single_glaser, glaserWalk, total_r]
  · simp [run_single_glaser, glaserWalk]

/-- C8: when the total vapour resistance is zero the guarded branch makes
every layer's vapour-pressure drop zero, so the running vapour pressure
stays at `pv_in` and every node's dew point is that of the inside vapour
pressure (the division by `total_rv` is never taken). -/
theorem c8_zero_total_rv (layers : List Layer) (t_in rh_in t_out rh_out : ℝ)
    (h : total_rv layers = 0) :
    ∀ n ∈ (run_single_glaser layers t_in rh_in t_out rh_out).points,
      n.dew = calculate_dewpoint (pvOf t_in rh_in) := by
  intro n hn
  have htrv : ¬ (0 : ℝ) < total_rv layers := by rw [h]; exact lt_irrefl 0
  simp only [run_single_glaser, List.mem_cons] at hn
  rcases hn with hn | hn | hn
  · subst hn; rfl
  · subst hn; rfl
  · exact glaserWalk_pv_const _ _ _ _ _ _ htrv _ _ _ _ n hn

/-- Concrete witness assembly for C8: a single layer whose direct vapour
resistance column is 0, making the total vapour resistance zero. -/
def c8Layer : Layer := ⟨"Membrane", 2, 0.2, 10000, some 0⟩

theorem c8_witness :
    total_rv [c8Layer] = 0 ∧
    ∀ n ∈ (run_single_glaser [c8Layer] 20 50 0 80).points,
      n.dew = calculate_dewpoint (pvOf 20 50) := by
  have h : total_rv [c8Layer] = 0 := by
    simp [total_rv, layerRv, c8Layer]
  exact ⟨h, c8_zero_total_rv [c8Layer] 20 50 0 80 h⟩

/-! ### Analytic facts about the dew-point formula -/

/-- The Magnus exponent `17.27 t / (237.7 + t)` appearing in `satP`. -/
noncomputable def mag (t : ℝ) : ℝ := (17.27 * t) / (237.7 + t)

/-- The dew-point inversion as a function of the logarithm term. -/
noncomputable def dewFrac (L : ℝ) : ℝ := (237.7 * L) / (17.27 - L)

lemma satP_pos (t : ℝ) : 0 < satP t := by
  unfold satP
  positivity

lemma pvOf_pos (t rh : ℝ) (h : 0 < rh) : 0 < pvOf t rh := by
  have := satP_pos t
  unfold pvOf
  positivity

lemma calculate_dewpoint_of_pos (vp : ℝ) (h : 0 < vp) :
    calculate_dewpoint vp = dewFrac (Real.log (vp / 610.5)) := by
  rw [calculate_dewpoint, if_neg (not_le.mpr h)]
  rfl

lemma log_pvOf (t rh : ℝ) (h : 0 < rh) :
    Real.log (pvOf t rh / 610.5) = mag t + Real.log (rh / 100) := by
  have h1 : pvOf t rh / 610.5 = Real.exp (mag t) * (rh / 100) := by
    unfold pvOf satP mag
    ring
  rw [h1, Real.log_mul (Real.exp_ne_zero _) (by positivity), Real.log_exp]

lemma mag_lt (t : ℝ) (ht : -237.7 < t) : mag t < 17.27 := by
  unfold mag
  have hd : 0 < 237.7 + t := by linarith
  rw [div_lt_iff₀ hd]
  nlinarith

lemma mag_mono (x y : ℝ) (hx : -237.7 < x) (hxy : x ≤ y) : mag x ≤ mag y := by
  unfold mag
  have hdx : 0 < 237.7 + x := by linarith
  have hdy : 0 < 237.7 + y := by linarith
  rw [div_le_div_iff₀ hdx hdy]
  nlinarith [mul_nonneg (sub_nonneg.mpr hxy) (show (0:ℝ) ≤ 17.27 * 237.7 by norm_num)]

lemma dewFrac_le_dewFrac (x y : ℝ) (hxy : x ≤ y) (hy : y < 17.27) :
    dewFrac x ≤ dewFrac y := by
  unfold dewFrac
  have hdx : 0 < 17.27 - x := by linarith
  have hdy : 0 < 17.27 - y := by linarith
  rw [div_le_div_iff₀ hdx hdy]
  nlinarith [mul_nonneg (sub_nonneg.mpr hxy) (show (0:ℝ) ≤ 237.7 * 17.27 by norm_num)]

lemma dewFrac_lt_dewFrac (x y : ℝ) (hxy : x < y) (hy : y < 17.27) :
    dewFrac x < dewFrac y := by
  unfold dewFrac
  have hdx : 0 < 17.27 - x := by linarith
  have hdy : 0 < 17.27 - y := by linarith
  rw [div_lt_div_iff₀ hdx hdy]
  nlinarith [mul_pos (sub_pos.mpr hxy) (show (0:ℝ) < 237.7 * 17.27 by norm_num)]

lemma dewFrac_mag (t : ℝ) (ht : -237.7 < t) : dewFrac (mag t) = t := by
  unfold dewFrac mag
  have hd : 0 < 237.7 + t := by linarith
  have hd' : (237.7 + t) ≠ 0 := ne_of_gt hd
  rw [div_eq_iff]
  · field_simp
    ring
  · intro hzero
    have : (17.27 : ℝ) * 237.7 / (237.7 + t) = 0 := by
      rw [← hzero]
      field_simp
      ring
    rw [div_eq_zero_iff] at this
    rcases this with h | h
    · norm_num at h
    · exact hd' h

/-- Workhorse bound: if `rh/100 ≤ exp (mag tp - mag t)` then the dew point
of `pvOf t rh` is at most `tp`. -/
lemma dewpoint_le (t tp rh : ℝ) (htp : -237.7 < tp) (hrh : 0 < rh)
    (h : rh / 100 ≤ Real.exp (mag tp - mag t)) :
    calculate_dewpoint (pvOf t rh) ≤ tp := by
  have hpv : 0 < pvOf t rh := pvOf_pos t rh hrh
  rw [calculate_dewpoint_of_pos _ hpv, log_pvOf t rh hrh]
  have hlog : Real.log (rh / 100) ≤ mag tp - mag t := by
    rw [Real.log_le_iff_le_exp (by positivity)]
    exact h
  have harg : mag t + Real.log (rh / 100) ≤ mag tp := by linarith
  calc dewFrac (mag t + Real.log (rh / 100)) ≤ dewFrac (mag tp) :=
        dewFrac_le_dewFrac _ _ harg (mag_lt tp htp)
    _ = tp := dewFrac_mag tp htp

/-- Strict version of the workhorse bound. -/
lemma dewpoint_lt (t tp rh : ℝ) (htp : -237.7 < tp) (hrh : 0 < rh)
    (h : rh / 100 < Real.exp (mag tp - mag t)) :
    calculate_dewpoint (pvOf t rh) < tp := by
  have hpv : 0 < pvOf t rh := pvOf_pos t rh hrh
  rw [calculate_dewpoint_of_pos _ hpv, log_pvOf t rh hrh]
  have hlog : Real.log (rh / 100) < mag tp - mag t := by
    rw [Real.log_lt_iff_lt_exp (by positivity)]
    exact h
  have harg : mag t + Real.log (rh / 100) < mag tp := by linarith
  calc dewFrac (mag t + Real.log (rh / 100)) < dewFrac (mag tp) :=
        dewFrac_lt_dewFrac _ _ harg (mag_lt tp htp)
    _ = tp := dewFrac_mag tp htp

/-- At 100 % relative humidity the dew point recovers the temperature,
provided the temperature is above the Magnus pole. -/
lemma dewpoint_satP (t : ℝ) (ht : -237.7 < t) :
    calculate_dewpoint (pvOf t 100) = t := by
  have hpv : 0 < pvOf t 100 := pvOf_pos t 100 (by norm_num)
  rw [calculate_dewpoint_of_pos _ hpv, log_pvOf t 100 (by norm_num)]
  have h1 : Real.log ((100 : ℝ) / 100) = 0 := by norm_num
  rw [h1, add_zero]
  exact dewFrac_mag t ht

/-- C6 (amended): for temperatures above the Magnus pole -237.7 °C and
relative humidity in (0, 100], the dew point of the vapour pressure is at
most the temperature, with equality exactly at 100 % humidity. -/
theorem c6_roundtrip (t rh : ℝ) (ht : -237.7 < t) (h0 : 0 < rh)
    (h1 : rh ≤ 100) :
    calculate_dewpoint (pvOf t rh) ≤ t ∧
    (calculate_dewpoint (pvOf t rh) = t ↔ rh = 100) := by
  constructor
  · apply dewpoint_le t t rh ht h0
    rw [sub_self, Real.exp_zero]
    linarith
  · constructor
    · intro he
      by_contra hne
      have hlt : rh < 100 := lt_of_le_of_ne h1 hne
      have hstrict : calculate_dewpoint (pvOf t rh) < t := by
        apply dewpoint_lt t t rh ht h0
        rw [sub_self, Real.exp_zero]
        linarith
      rw [he] at hstrict
      exact lt_irrefl t hstrict
    · intro he
      subst he
      exact dewpoint_satP t ht

theorem c6_witness :
    ((-237.7 : ℝ) < 20 ∧ (0 : ℝ) < 100 ∧ (100 : ℝ) ≤ 100) ∧
    calculate_dewpoint (pvOf 20 100) ≤ 20 ∧
    (calculate_dewpoint (pvOf 20 100) = 20 ↔ (100 : ℝ) = 100) :=
  ⟨⟨by norm_num, by norm_num, by norm_num⟩,
    c6_roundtrip 20 100 (by norm_num) (by norm_num) (by norm_num)⟩

/-- C6 counterexample: at temperature -300 °C (below the Magnus pole at
-237.7 °C) and relative humidity 100·exp(16 - mag(-300)), which lies in
(0, 100], the composed dew point is 237.7·16/1.27 ≈ 2994.6 °C, far above
the temperature, so the claim quantified over every temperature fails. -/
theorem c6_counterexample :
    0 < 100 * Real.exp (16 - mag (-300)) ∧
    100 * Real.exp (16 - mag (-300)) ≤ 100 ∧
    ¬ calculate_dewpoint (pvOf (-300) (100 * Real.exp (16 - mag (-300)))) ≤
        -300 := by
  have h0 : 0 < 100 * Real.exp (16 - mag (-300)) := by positivity
  refine ⟨h0, ?_, ?_⟩
  · have h1 : Real.exp (16 - mag (-300)) ≤ 1 := by
      rw [Real.exp_le_one_iff]
      unfold mag
      norm_num
    linarith
  · have hpv : 0 < pvOf (-300) (100 * Real.exp (16 - mag (-300))) :=
      pvOf_pos _ _ h0
    rw [calculate_dewpoint_of_pos _ hpv, log_pvOf _ _ h0]
    have hl : Real.log (100 * Real.exp (16 - mag (-300)) / 100) =
        16 - mag (-300) := by
      have he : (100 : ℝ) * Real.exp (16 - mag (-300)) / 100 =
          Real.exp (16 - mag (-300)) := by ring
      rw [he, Real.log_exp]
    rw [hl]
    have harg : mag (-300) + (16 - mag (-300)) = 16 := by ring
    rw [harg]
    unfold dewFrac
    norm_num

/-- The vapour pressure at which the dew-point formula returns exactly the
sentinel value -50 °C. -/
lemma dewpoint_at_sentinel_vp :
    calculate_dewpoint (610.5 * Real.exp (-(863.5 / 187.7))) = -50 := by
  have hpos : 0 < (610.5 : ℝ) * Real.exp (-(863.5 / 187.7)) := by positivity
  rw [calculate_dewpoint_of_pos _ hpos]
  have he : (610.5 : ℝ) * Real.exp (-(863.5 / 187.7)) / 610.5 =
      Real.exp (-(863.5 / 187.7)) := by ring
  rw [he, Real.log_exp]
  unfold dewFrac
  norm_num

/-- C2 counterexample: the strictly positive vapour pressure
`610.5·exp(-863.5/187.7)` (about 6.13 Pa) makes the computed dew point
exactly -50 °C, coinciding with the sentinel. -/
theorem c2_counterexample :
    0 < (610.5 : ℝ) * Real.exp (-(863.5 / 187.7)) ∧
    calculate_dewpoint (610.5 * Real.exp (-(863.5 / 187.7))) = -50 :=
  ⟨by positivity, dewpoint_at_sentinel_vp⟩

/-- C2 (amended): for a positive vapour pressure the computed dew point
equals the sentinel -50 °C exactly at the single vapour pressure
`610.5·exp(-863.5/187.7)`; every other positive vapour pressure yields a
dew point different from -50 °C. -/
theorem c2_sentinel_unique (vp : ℝ) (h : 0 < vp) :
    calculate_dewpoint vp = -50 ↔
      vp = 610.5 * Real.exp (-(863.5 / 187.7)) := by
  constructor
  · intro he
    rw [calculate_dewpoint_of_pos _ h] at he
    unfold dewFrac at he
    by_cases hd : (17.27 : ℝ) - Real.log (vp / 610.5) = 0
    · rw [hd, div_zero] at he
      norm_num at he
    · rw [div_eq_iff hd] at he
      have hlog : Real.log (vp / 610.5) = -(863.5 / 187.7) := by linarith
      have hvp : vp / 610.5 = Real.exp (-(863.5 / 187.7)) := by
        rw [← hlog, Real.exp_log (by positivity)]
      have h610 : (610.5 : ℝ) ≠ 0 := by norm_num
      rw [div_eq_iff h610] at hvp
      linarith [hvp]
  · intro he
    rw [he]
    exact dewpoint_at_sentinel_vp

theorem c2_witness :
    (0 : ℝ) < 610.5 ∧
    (calculate_dewpoint 610.5 = -50 ↔
      (610.5 : ℝ) = 610.5 * Real.exp (-(863.5 / 187.7))) :=
  ⟨by norm_num, c2_sentinel_unique 610.5 (by norm_num)⟩

/-! ### The annual aggregation branch (RUN CALCULATIONS, lines 221-277) -/

/-- One month of the Galway climate table (src/app.py lines 19-27),
zipping the parallel arrays `months`, `temp_in`, `rh_in`, `temp_out`,
`rh_out` at one index. -/
structure MonthData where
  month : String
  t_in : ℝ
  rh_in : ℝ
  t_out : ℝ
  rh_out : ℝ

/-- `CLIMATE_DATA["Galway (ISO 13788)"]` (lines 19-27), one record per
calendar month. -/
noncomputable def climateGalway : List MonthData :=
  [⟨"Jan", 20, 66.2, -2.2, 92⟩, ⟨"Feb", 20, 66.3, -2.0, 91⟩,
   ⟨"Mar", 20, 68.5, -0.8, 91⟩, ⟨"Apr", 20, 70.3, 0.7, 93⟩,
   ⟨"May", 20, 69.7, 2.6, 92⟩, ⟨"Jun", 20, 70.4, 5.9, 92⟩,
   ⟨"Jul", 20, 72.0, 7.9, 93⟩, ⟨"Aug", 20, 72.2, 7.6, 94⟩,
   ⟨"Sep", 20, 71.3, 6.1, 94⟩, ⟨"Oct", 20, 70.1, 3.0, 93⟩,
   ⟨"Nov", 20, 70.4, 0.4, 93⟩, ⟨"Dec", 20, 68.6, -1.0, 93⟩]

/-- The assembly orientation used for every monthly engine call:
`calc_layers[::-1]` (line 252). -/
def monthlyAssembly (layers : List Layer) : List Layer := layers.reverse

/-- The assembly argument of the U-value snapshot call, likewise
`calc_layers[::-1]` (line 225). -/
def uSnapshotAssembly (layers : List Layer) : List Layer := layers.reverse

/-- The engine call of one monthly iteration (line 252). -/
noncomputable def runOf (layers : List Layer) (m : MonthData) : GlaserResult :=
  run_single_glaser (monthlyAssembly layers) m.t_in m.rh_in m.t_out m.rh_out

/-- Line 257: `np.sum(np.maximum(0, dew - temp))` over a profile. -/
noncomputable def overlapScore (pts : List Node) : ℝ :=
  (pts.map (fun n => max 0 (n.dew - n.temp))).sum

/-- A month's exceedance score: line 257 applied to that month's run. -/
noncomputable def scoreOf (layers : List Layer) (m : MonthData) : ℝ :=
  overlapScore (runOf layers m).points

/-- An entry of `monthly_report` (line 253). -/
structure MonthRes where
  month : String
  risk : Bool
  t_out : ℝ
  rh_out : ℝ

/-- The mutable state of the monthly loop: `monthly_report` (line 229),
`risky_months`, `worst_points`, `max_overlap` (lines 241-243) and
`worst_month_name` (line 262). -/
structure AnnState where
  report : List MonthRes
  risky : List String
  maxOv : ℝ
  worst : Option (List Node)
  worstName : Option String

/-- One iteration of the monthly loop (lines 245-265): run the engine,
append the monthly report entry, and when `overlap_score >= max_overlap`
(line 259) replace the running maximum, the worst profile and the worst
month name; append to `risky_months` when the run flagged risk. -/
noncomputable def annStep (layers : List Layer) (st : AnnState)
    (m : MonthData) : AnnState :=
  let res := runOf layers m
  let report := st.report ++ [⟨m.month, res.risk, m.t_out, m.rh_out⟩]
  let score := overlapScore res.points
  let sel := if st.maxOv ≤ score then (score, some res.points, some m.month)
             else (st.maxOv, st.worst, st.worstName)
  let risky := if res.risk then st.risky ++ [m.month] else st.risky
  ⟨report, risky, sel.1, sel.2.1, sel.2.2⟩

/-- The annual `Result` handed to the renderers: `u_val`,
`final_risk_msg`, `graph_data`, `monthly_report`, `worst_month_name`. -/
structure AnnualResult where
  u_value : ℝ
  final_risk_msg : String
  graph_data : Option (List Node)
  monthly_report : List MonthRes
  worst_month_name : Option String

/-- The annual-mode branch of RUN CALCULATIONS (lines 221-277): the
U-value snapshot on the fixed 20/50/0/80 reference sample (line 225), the
12-month Galway loop (lines 245-265), and the verdict (lines 269-277);
both verdict branches display the worst-scoring month's profile. -/
noncomputable def computeAnnual (layers : List Layer) : AnnualResult :=
  let u_val := (run_single_glaser (uSnapshotAssembly layers) 20 50 0 80).u
  let st := climateGalway.foldl (annStep layers) ⟨[], [], 0, none, none⟩
  if 0 < st.risky.length then
    ⟨u_val, "FAIL (Risk in " ++ String.intercalate ", " st.risky ++ ")",
      st.worst, st.report, st.worstName⟩
  else
    ⟨u_val, "NONE (Safe Year-Round)", st.worst, st.report, st.worstName⟩

/-! ### Projections of the annual result -/

lemma computeAnnual_graph_data (L : List Layer) :
    (computeAnnual L).graph_data =
      (climateGalway.foldl (annStep L) ⟨[], [], 0, none, none⟩).worst := by
  simp only [computeAnnual]
  split <;> rfl

lemma computeAnnual_worst_month_name (L : List Layer) :
    (computeAnnual L).worst_month_name =
      (climateGalway.foldl (annStep L) ⟨[], [], 0, none, none⟩).worstName := by
  simp only [computeAnnual]
  split <;> rfl

lemma computeAnnual_u_value (L : List Layer) :
    (computeAnnual L).u_value =
      (run_single_glaser (uSnapshotAssembly L) 20 50 0 80).u := by
  simp only [computeAnnual]
  split <;> rfl

/-- The `risky_months` list accumulated by the loop is the calendar-order
filter of the months whose run flagged risk. -/
lemma foldl_annStep_risky (L : List Layer) :
    ∀ (ms : List MonthData) (st : AnnState),
      (ms.foldl (annStep L) st).risky =
        st.risky ++ (ms.filter (fun m => (runOf L m).risk)).map MonthData.month := by
  intro ms
  induction ms with
  | nil => intro st; simp
  | cons m ms ih =>
    intro st
    rw [List.foldl_cons, ih]
    by_cases hr : (runOf L m).risk
    · simp [annStep, hr, List.filter_cons]
    · simp [annStep, hr, List.filter_cons]

lemma computeAnnual_msg (L : List Layer) :
    (computeAnnual L).final_risk_msg =
      (if 0 < (climateGalway.foldl (annStep L) ⟨[], [], 0, none, none⟩).risky.length
       then "FAIL (Risk in " ++ String.intercalate ", "
              (climateGalway.foldl (annStep L) ⟨[], [], 0, none, none⟩).risky ++ ")"
       else "NONE (Safe Year-Round)") := by
  simp only [computeAnnual]
  split <;> simp_all

/-! ### Worst-month selection -/

lemma overlapScore_nonneg (pts : List Node) : 0 ≤ overlapScore pts := by
  unfold overlapScore
  apply List.sum_nonneg
  intro x hx
  obtain ⟨n, _, rfl⟩ := List.mem_map.mp hx
  exact le_max_left 0 _

lemma annStep_maxOv (L : List Layer) (st : AnnState) (m : MonthData) :
    (annStep L st m).maxOv =
      if st.maxOv ≤ overlapScore (runOf L m).points
      then overlapScore (runOf L m).points else st.maxOv := by
  simp only [annStep]
  split <;> rfl

lemma annStep_worst (L : List Layer) (st : AnnState) (m : MonthData) :
    (annStep L st m).worst =
      if st.maxOv ≤ overlapScore (runOf L m).points
      then some (runOf L m).points else st.worst := by
  simp only [annStep]
  split <;> rfl

lemma annStep_worstName (L : List Layer) (st : AnnState) (m : MonthData) :
    (annStep L st m).worstName =
      if st.maxOv ≤ overlapScore (runOf L m).points
      then some m.month else st.worstName := by
  simp only [annStep]
  split <;> rfl

/-- The monthly loop selects the profile of a maximal-score month, and the
`>=` comparison at line 259 means an equal later score replaces the
selection: every month after the selected index scores strictly less. -/
lemma annualLoop_sel (L : List Layer) (ms : List MonthData) (hne : ms ≠ []) :
    ∃ j, ∃ hj : j < ms.length,
      (ms.foldl (annStep L) ⟨[], [], 0, none, none⟩).maxOv = scoreOf L ms[j] ∧
      (ms.foldl (annStep L) ⟨[], [], 0, none, none⟩).worst =
        some (runOf L ms[j]).points ∧
      (ms.foldl (annStep L) ⟨[], [], 0, none, none⟩).worstName =
        some ms[j].month ∧
      (∀ k, ∀ hk : k < ms.length, scoreOf L ms[k] ≤ scoreOf L ms[j]) ∧
      (∀ k, ∀ hk : k < ms.length, j < k → scoreOf L ms[k] < scoreOf L ms[j]) := by
  induction ms using List.reverseRecOn with
  | nil => exact absurd rfl hne
  | append_singleton ms m ih =>
    have hfold : (ms ++ [m]).foldl (annStep L) ⟨[], [], 0, none, none⟩ =
        annStep L (ms.foldl (annStep L) ⟨[], [], 0, none, none⟩) m := by
      rw [List.foldl_append, List.foldl_cons, List.foldl_nil]
    rcases eq_or_ne ms [] with hms | hms
    · subst hms
      have h0 : (0 : ℝ) ≤ overlapScore (runOf L m).points := overlapScore_nonneg _
      refine ⟨0, by simp, ?_, ?_, ?_, ?_, ?_⟩
      · rw [hfold, annStep_maxOv]
        simp only [List.foldl_nil]
        rw [if_pos h0]
        rfl
      · rw [hfold, annStep_worst]
        simp only [List.foldl_nil]
        rw [if_pos h0]
        rfl
      · rw [hfold, annStep_worstName]
        simp only [List.foldl_nil]
        rw [if_pos h0]
        rfl
      · intro k hk
        simp only [List.nil_append, List.length_cons, List.length_nil] at hk
        interval_cases k
        · exact le_refl _
      · intro k hk hjk
        simp only [List.nil_append, List.length_cons, List.length_nil] at hk
        omega
    · obtain ⟨j, hj, h1, h2, h3, h4, h5⟩ := ih hms
      have hlenm : ms.length < (ms ++ [m]).length := by simp
      have hgetm : (ms ++ [m])[ms.length] = m := by
        simp
      by_cases hc : (ms.foldl (annStep L) ⟨[], [], 0, none, none⟩).maxOv ≤
          overlapScore (runOf L m).points
      · refine ⟨ms.length, by simp, ?_, ?_, ?_, ?_, ?_⟩
        · rw [hfold, annStep_maxOv, if_pos hc, hgetm]
          rfl
        · rw [hfold, annStep_worst, if_pos hc, hgetm]
        · rw [hfold, annStep_worstName, if_pos hc, hgetm]
        · intro k hk
          rw [hgetm]
          rcases Nat.lt_or_ge k ms.length with hkl | hkl
          · rw [List.getElem_append_left hkl]
            calc scoreOf L ms[k] ≤ scoreOf L ms[j] := h4 k hkl
              _ = (ms.foldl (annStep L) ⟨[], [], 0, none, none⟩).maxOv := h1.symm
              _ ≤ overlapScore (runOf L m).points := hc
              _ = scoreOf L m := rfl
          · have hkeq : k = ms.length := by
              simp only [List.length_append, List.length_cons, List.length_nil] at hk
              omega
            subst hkeq
            rw [hgetm]
        · intro k hk hjk
          simp only [List.length_append, List.length_cons, List.length_nil] at hk
          omega
      · have hlt : overlapScore (runOf L m).points <
            (ms.foldl (annStep L) ⟨[], [], 0, none, none⟩).maxOv := not_le.mp hc
        have hj' : j < (ms ++ [m]).length := by
          simp only [List.length_append, List.length_cons, List.length_nil]
          omega
        have hgetj : (ms ++ [m])[j] = ms[j] := List.getElem_append_left hj
        refine ⟨j, hj', ?_, ?_, ?_, ?_, ?_⟩
        · rw [hfold, annStep_maxOv, if_neg hc, hgetj]
          exact h1
        · rw [hfold, annStep_worst, if_neg hc, hgetj]
          exact h2
        · rw [hfold, annStep_worstName, if_neg hc, hgetj]
          exact h3
        · intro k hk
          rw [hgetj]
          rcases Nat.lt_or_ge k ms.length with hkl | hkl
          · rw [List.getElem_append_left hkl]
            exact h4 k hkl
          · have hkeq : k = ms.length := by
              simp only [List.length_append, List.length_cons, List.length_nil] at hk
              omega
            subst hkeq
            rw [hgetm]
            calc scoreOf L m = overlapScore (runOf L m).points := rfl
              _ ≤ scoreOf L ms[j] := by rw [← h1]; exact le_of_lt hlt
        · intro k hk hjk
          rw [hgetj]
          rcases Nat.lt_or_ge k ms.length with hkl | hkl
          · rw [List.getElem_append_left hkl]
            exact h5 k hkl hjk
          · have hkeq : k = ms.length := by
              simp only [List.length_append, List.length_cons, List.length_nil] at hk
              omega
            subst hkeq
            rw [hgetm]
            calc scoreOf L m = overlapScore (runOf L m).points := rfl
              _ < scoreOf L ms[j] := by rw [← h1]; exact hlt

/-- C4: in annual mode each month's exceedance score is
`Σ max(0, dew - temp)` over all of that month's profile nodes (`scoreOf`),
and the displayed profile is that of a maximal-score month; the `>=`
update makes an equal score replace the running selection, so every month
after the selected one scores strictly less (ties favour the later
month). -/
theorem c4_worst_month_selection (L : List Layer) :
    ∃ j, ∃ hj : j < climateGalway.length,
      (computeAnnual L).graph_data = some (runOf L climateGalway[j]).points ∧
      (computeAnnual L).worst_month_name = some climateGalway[j].month ∧
      (∀ k, ∀ hk : k < climateGalway.length,
        scoreOf L climateGalway[k] ≤ scoreOf L climateGalway[j]) ∧
      (∀ k, ∀ hk : k < climateGalway.length, j < k →
        scoreOf L climateGalway[k] < scoreOf L climateGalway[j]) := by
  obtain ⟨j, hj, _, h2, h3, h4, h5⟩ :=
    annualLoop_sel L climateGalway (by simp [climateGalway])
  refine ⟨j, hj, ?_, ?_, h4, h5⟩
  · rw [computeAnnual_graph_data]
    exact h2
  · rw [computeAnnual_worst_month_name]
    exact h3

/-- When every month scores zero the `>=` test succeeds on every
iteration, so the last processed month's profile is selected. -/
lemma annualLoop_allzero (L : List Layer) :
    ∀ (ms : List MonthData) (st : AnnState), st.maxOv = 0 →
      (∀ m ∈ ms, scoreOf L m = 0) → ∀ hne : ms ≠ [],
      (ms.foldl (annStep L) st).maxOv = 0 ∧
      (ms.foldl (annStep L) st).worst =
        some (runOf L (ms.getLast hne)).points ∧
      (ms.foldl (annStep L) st).worstName = some (ms.getLast hne).month := by
  intro ms
  induction ms with
  | nil => intro st _ _ hne; exact absurd rfl hne
  | cons m ms ih =>
    intro st hmax hsc hne
    have hm0 : scoreOf L m = 0 := hsc m (List.mem_cons_self m ms)
    have hc : st.maxOv ≤ overlapScore (runOf L m).points := by
      rw [hmax]
      exact le_of_eq (hm0.symm)
    have hst' : (annStep L st m).maxOv = 0 := by
      rw [annStep_maxOv, if_pos hc]
      exact hm0
    rw [List.foldl_cons]
    rcases eq_or_ne ms [] with hms | hms
    · subst hms
      simp only [List.foldl_nil]
      refine ⟨hst', ?_, ?_⟩
      · rw [annStep_worst, if_pos hc]
        rfl
      · rw [annStep_worstName, if_pos hc]
        rfl
    · have hrec := ih (annStep L st m) hst'
        (fun x hx => hsc x (List.mem_cons_of_mem m hx)) hms
      rw [List.getLast_cons hms]
      exact hrec

/-- C9: when every month's exceedance score is zero, the running maximum
stays 0 and every month replaces the selection via the inclusive `>=`
test, so the December profile — the last month in calendar order — is the
one selected for display. -/
theorem c9_all_safe_december (L : List Layer)
    (h : ∀ m ∈ climateGalway, scoreOf L m = 0) :
    (computeAnnual L).graph_data =
      some (runOf L ⟨"Dec", 20, 68.6, -1.0, 93⟩).points ∧
    (computeAnnual L).worst_month_name = some "Dec" := by
  have hne : climateGalway ≠ [] := by simp [climateGalway]
  obtain ⟨_, hworst, hname⟩ :=
    annualLoop_allzero L climateGalway ⟨[], [], 0, none, none⟩ rfl h hne
  have hlast : climateGalway.getLast hne = ⟨"Dec", 20, 68.6, -1.0, 93⟩ := rfl
  constructor
  · rw [computeAnnual_graph_data, hworst, hlast]
  · rw [computeAnnual_worst_month_name, hname, hlast]

/-- C5: the annual verdict is the FAIL message naming exactly the months
whose run flagged risk — the calendar-order, duplicate-free filter of the
climate table — when at least one month flagged risk, and otherwise the
safe year-round message. -/
theorem c5_verdict (L : List Layer) :
    ((computeAnnual L).final_risk_msg =
      if climateGalway.any (fun m => (runOf L m).risk) then
        "FAIL (Risk in " ++ String.intercalate ", "
          ((climateGalway.filter (fun m => (runOf L m).risk)).map
            MonthData.month) ++ ")"
      else "NONE (Safe Year-Round)") ∧
    ((climateGalway.filter (fun m => (runOf L m).risk)).map
      MonthData.month).Nodup ∧
    List.Sublist
      ((climateGalway.filter (fun m => (runOf L m).risk)).map MonthData.month)
      (climateGalway.map MonthData.month) := by
  have hrisky : (climateGalway.foldl (annStep L) ⟨[], [], 0, none, none⟩).risky =
      (climateGalway.filter (fun m => (runOf L m).risk)).map MonthData.month := by
    rw [foldl_annStep_risky]
    rfl
  have hsub : List.Sublist
      ((climateGalway.filter (fun m => (runOf L m).risk)).map MonthData.month)
      (climateGalway.map MonthData.month) :=
    List.Sublist.map _ (List.filter_sublist _)
  have hnames : (climateGalway.map MonthData.month).Nodup := by
    have he : climateGalway.map MonthData.month =
        ["Jan", "Feb", "Mar", "Apr", "May", "Jun",
         "Jul", "Aug", "Sep", "Oct", "Nov", "Dec"] := rfl
    rw [he]
    decide
  have hlen : 0 < ((climateGalway.filter (fun m => (runOf L m).risk)).map
      MonthData.month).length ↔
      climateGalway.any (fun m => (runOf L m).risk) = true := by
    rw [List.length_map, List.length_pos, Ne, List.filter_eq_nil_iff,
      List.any_eq_true]
    push_neg
    simp
  refine ⟨?_, hnames.sublist hsub, hsub⟩
  rw [computeAnnual_msg, hrisky]
  by_cases h : climateGalway.any (fun m => (runOf L m).risk) = true
  · rw [if_pos (hlen.mpr h), if_pos h]
  · rw [if_neg (fun hp => h (hlen.mp hp)), if_neg h]

/-! ### The annual U-value snapshot and its orientation -/

/-- A concrete two-layer assembly used to compare orientations. -/
noncomputable def layerA : Layer := ⟨"Aluminium", 1, 160, 5000, none⟩

/-- Second concrete layer, distinct from `layerA`. -/
noncomputable def layerB : Layer := ⟨"CLT Panel", 160, 0.13, 50, none⟩

/-- C1 counterexample: the assembly passed to the annual U-value snapshot
(line 225) is `calc_layers[::-1]`, exactly the climate-cycle walking order
of line 252 — not its reverse: on the two-layer assembly
`[layerA, layerB]` the snapshot orientation equals the monthly walking
order and differs from that order reversed. -/
theorem c1_counterexample :
    uSnapshotAssembly [layerA, layerB] = monthlyAssembly [layerA, layerB] ∧
    uSnapshotAssembly [layerA, layerB] ≠
      (monthlyAssembly [layerA, layerB]).reverse := by
  refine ⟨rfl, ?_⟩
  intro h
  simp only [uSnapshotAssembly, monthlyAssembly, List.reverse_reverse] at h
  have hrev : ([layerA, layerB] : List Layer).reverse = [layerB, layerA] := rfl
  rw [hrev] at h
  injection h with h1 h2
  have hname := congrArg Layer.name h1
  simp only [layerA, layerB] at hname
  exact absurd hname (by decide)

/-- C1 (amended): the annual-mode u_value is the one returned by
run_single_glaser on the fixed 20 °C/50 % inside, 0 °C/80 % outside
reference sample with the assembly in the *same* orientation as the
climate-cycle walking order of the 12 monthly runs (and, the U-value
being orientation-independent, it also equals the value for the reversed
orientation), and the fixed reference sample is none of the 12 monthly
samples. -/
theorem c1_u_snapshot (L : List Layer) :
    (computeAnnual L).u_value =
      (run_single_glaser (monthlyAssembly L) 20 50 0 80).u ∧
    (run_single_glaser (monthlyAssembly L) 20 50 0 80).u =
      (run_single_glaser ((monthlyAssembly L).reverse) 20 50 0 80).u ∧
    ∀ m ∈ climateGalway,
      ¬(m.t_in = 20 ∧ m.rh_in = 50 ∧ m.t_out = 0 ∧ m.rh_out = 80) := by
  refine ⟨computeAnnual_u_value L, ?_, ?_⟩
  · have hrev : total_r ((monthlyAssembly L).reverse) =
        total_r (monthlyAssembly L) := by
      unfold total_r
      rw [List.map_reverse, List.sum_reverse]
    show (1 : ℝ) / total_r (monthlyAssembly L) =
      1 / total_r ((monthlyAssembly L).reverse)
    rw [hrev]
  · intro m hm
    fin_cases hm <;> norm_num

/-! ### A concrete assembly on which every month scores zero -/

/-- The profile emitted for a single-layer assembly, by unfolding one step
of the walk. -/
lemma single_layer_points (l : Layer) (t_in rh_in t_out rh_out : ℝ) :
    (run_single_glaser [l] t_in rh_in t_out rh_out).points =
      [⟨0, t_in, calculate_dewpoint (pvOf t_in rh_in)⟩,
       ⟨0, t_in - (t_in - t_out) * (0.10 / total_r [l]),
        calculate_dewpoint (pvOf t_in rh_in)⟩,
       ⟨0 + l.thickness,
        t_in - (t_in - t_out) * (0.10 / total_r [l]) -
          (t_in - t_out) * (layerR l / total_r [l]),
        calculate_dewpoint (pvOf t_in rh_in -
          (if 0 < total_rv [l] then
            (pvOf t_in rh_in - pvOf t_out rh_out) * (layerRv l / total_rv [l])
           else 0))⟩] := rfl

/-- A thick, highly insulating layer with direct vapour resistance 1: the
inside film drop becomes negligible and the vapour pressure falls to the
outside value across the layer. -/
noncomputable def c9Layer : Layer := ⟨"Insulation", 1000, 0.001, 1, some 1⟩

lemma c9_layerR : layerR c9Layer = 1000 := by
  simp only [layerR, c9Layer]
  norm_num

lemma c9_layerRv : layerRv c9Layer = 1 := rfl

lemma c9_total_r : total_r [c9Layer] = 1000.14 := by
  simp only [total_r, List.map_cons, List.map_nil, List.sum_cons,
    List.sum_nil, c9_layerR]
  norm_num

lemma c9_total_rv : total_rv [c9Layer] = 1 := by
  simp only [total_rv, List.map_cons, List.map_nil, List.sum_cons,
    List.sum_nil, c9_layerRv]
  norm_num

/-- On the witness assembly, any month with inside conditions 20 °C and
humidity at most 99 %, and outside conditions in the Galway range, has
exceedance score zero: the dew point stays below the temperature at all
three profile nodes. -/
lemma c9_month_score (rhi tou rho : ℝ) (h1 : 0 < rhi) (h2 : rhi ≤ 99)
    (h3 : -3 ≤ tou) (h4 : tou ≤ 8) (h5 : 0 < rho) (h6 : rho ≤ 100) :
    overlapScore (run_single_glaser [c9Layer] 20 rhi tou rho).points = 0 := by
  rw [single_layer_points, c9_total_r, c9_total_rv, c9_layerR, c9_layerRv,
    if_pos (by norm_num : (0 : ℝ) < 1)]
  unfold overlapScore
  simp only [List.map_cons, List.map_nil, List.sum_cons, List.sum_nil]
  have hpv2 : pvOf 20 rhi - (pvOf 20 rhi - pvOf tou rho) * (1 / 1) =
      pvOf tou rho := by ring
  rw [hpv2]
  have hd20 : calculate_dewpoint (pvOf 20 rhi) ≤ 20 := by
    apply dewpoint_le 20 20 rhi (by norm_num) h1
    rw [sub_self, Real.exp_zero]
    linarith
  have htemp1lb : (19.997 : ℝ) ≤ 20 - (20 - tou) * (0.10 / 1000.14) := by
    nlinarith
  have hdt1 : calculate_dewpoint (pvOf 20 rhi) ≤
      20 - (20 - tou) * (0.10 / 1000.14) := by
    apply dewpoint_le 20 _ rhi (by linarith) h1
    have hmono : mag 19.997 ≤ mag (20 - (20 - tou) * (0.10 / 1000.14)) :=
      mag_mono _ _ (by norm_num) htemp1lb
    have hgap : (-0.01 : ℝ) ≤ mag 19.997 - mag 20 := by
      unfold mag
      norm_num
    have hexp := Real.add_one_le_exp
      (mag (20 - (20 - tou) * (0.10 / 1000.14)) - mag 20)
    linarith
  have hdout : calculate_dewpoint (pvOf tou rho) ≤ tou := by
    apply dewpoint_le tou tou rho (by linarith) h5
    rw [sub_self, Real.exp_zero]
    linarith
  have htemp2 : tou ≤ 20 - (20 - tou) * (0.10 / 1000.14) -
      (20 - tou) * (1000 / 1000.14) := by
    nlinarith
  rw [max_eq_left (by linarith :
        calculate_dewpoint (pvOf 20 rhi) - 20 ≤ 0),
      max_eq_left (by linarith :
        calculate_dewpoint (pvOf 20 rhi) -
          (20 - (20 - tou) * (0.10 / 1000.14)) ≤ 0),
      max_eq_left (by linarith :
        calculate_dewpoint (pvOf tou rho) -
          (20 - (20 - tou) * (0.10 / 1000.14) -
            (20 - tou) * (1000 / 1000.14)) ≤ 0)]
  norm_num

theorem c9_witness :
    (∀ m ∈ climateGalway, scoreOf [c9Layer] m = 0) ∧
    (computeAnnual [c9Layer]).graph_data =
      some (runOf [c9Layer] ⟨"Dec", 20, 68.6, -1.0, 93⟩).points ∧
    (computeAnnual [c9Layer]).worst_month_name = some "Dec" := by
  have h : ∀ m ∈ climateGalway, scoreOf [c9Layer] m = 0 := by
    intro m hm
    fin_cases hm <;>
      exact c9_month_score _ _ _ (by norm_num) (by norm_num) (by norm_num)
        (by norm_num) (by norm_num) (by norm_num)
  exact ⟨h, c9_all_safe_december [c9Layer] h⟩

/-! ### Frame property: the engine only reads its inputs -/

/-- The layer loop of `run_single_glaser` (lines 129-138) with the
caller-owned layer list threaded as explicit state: each iteration reads
the fields of its layer cell, returns the cell unchanged, and appends a
freshly built record to `processed`. -/
noncomputable def glaserLoopSt :
    List Layer → ℝ × ℝ × List Proc → List Layer × ℝ × ℝ × List Proc
  | [], acc => ([], acc)
  | l :: rest, acc =>
    let r := layerR l
    let rv := layerRv l
    let acc2 := (acc.1 + r, acc.2.1 + rv,
      acc.2.2 ++ [⟨r, rv, l.thickness, l.name⟩])
    let res := glaserLoopSt rest acc2
    (l :: res.1, res.2)

/-- `run_single_glaser` with the caller-owned inputs — the layer list and
the four climate values — threaded through the call as explicit state. -/
noncomputable def run_single_glaser_st (env : List Layer × ℝ × ℝ × ℝ × ℝ) :
    (List Layer × ℝ × ℝ × ℝ × ℝ) × GlaserResult :=
  let layers := env.1
  let t_in := env.2.1
  let rh_in := env.2.2.1
  let t_out := env.2.2.2.1
  let rh_out := env.2.2.2.2
  let pv_in := pvOf t_in rh_in
  let pv_out := pvOf t_out rh_out
  let lp := glaserLoopSt layers (0.14, 0, [])
  let tr := lp.2.1
  let trv := lp.2.2.1
  let processed := lp.2.2.2
  let temp1 := t_in - (t_in - t_out) * (0.10 / tr)
  let w := glaserWalk t_in t_out pv_in pv_out tr trv processed temp1 pv_in 0
  ((lp.1, t_in, rh_in, t_out, rh_out),
   ⟨⟨0, t_in, calculate_dewpoint pv_in⟩ ::
      ⟨0, temp1, calculate_dewpoint pv_in⟩ :: w.1, w.2, 1 / tr⟩)

lemma glaserLoopSt_eq : ∀ (ls : List Layer) (acc : ℝ × ℝ × List Proc),
    glaserLoopSt ls acc =
      (ls, acc.1 + (ls.map layerR).sum, acc.2.1 + (ls.map layerRv).sum,
       acc.2.2 ++ ls.map toProc) := by
  intro ls
  induction ls with
  | nil => intro acc; simp [glaserLoopSt]
  | cons l rest ih =>
    intro acc
    simp only [glaserLoopSt, ih, List.map_cons, List.sum_cons]
    refine congrArg (fun z => (l :: rest, z)) ?_
    refine congrArg₂ (fun a b => (a, b)) (by ring) ?_
    refine congrArg₂ (fun a b => (a, b)) (by ring) ?_
    simp [toProc]

/-- C10: run_single_glaser does not mutate its inputs: with the caller's
layer list (hence every layer record in it) and the four climate values
threaded through the call as explicit state, the state after the call
equals the state before it, and the result is exactly that of the pure
engine — the loop only reads each layer, copying its fields into the
fresh internal `processed` list. -/
theorem c10_no_mutation (layers : List Layer) (t_in rh_in t_out rh_out : ℝ) :
    (run_single_glaser_st (layers, t_in, rh_in, t_out, rh_out)).1 =
      (layers, t_in, rh_in, t_out, rh_out) ∧
    (run_single_glaser_st (layers, t_in, rh_in, t_out, rh_out)).2 =
      run_single_glaser layers t_in rh_in t_out rh_out := by
  have hl := glaserLoopSt_eq layers (0.14, 0, [])
  constructor
  · simp only [run_single_glaser_st, hl]
  · simp only [run_single_glaser_st, run_single_glaser, hl]
    norm_num [total_r, total_rv]

end Vertex
